import Mathlib

/-!
Verification development for the enoti notification-shaping gateway.

The Go sources are shallowly embedded: machine integers (`int`, `int64`)
become `Int`, Go slices become `List`, the storage backends (DynamoDB,
Redis) are modelled by explicit state passing over the record a single
`(clientID, scopeKey)` pair owns, and fallible external calls (the store
interface, payload compression/JSON codecs, JMESPath evaluation) are
passed in as oracle arguments of `Except`/`Option` type, mirroring how
the Go functions are generic over the `ports` interfaces.
-/

namespace Enoti

/-! ## Data model (src/internal/types/state.go) -/

def HardLimitRecentItems : Nat := 128

/-- `types.Flip`. The Go field names `at`, `from`, `to` are Lean keywords,
so they are rendered `atTS`, `fromVal`, `toVal`. -/
structure Flip where
  atTS : Int
  fromVal : String
  toVal : String
  payload : String
deriving Repr, DecidableEq

/-- `types.Edge`, the persisted edge/flap state for a (clientID, scopeKey).
The `Version` field is kept outside (in the store model) because the Go
comment says it is maintained by the store, not by callers. -/
structure Edge where
  scopeKey : String
  lastValue : String
  lastChangeTS : Int
  windowStart : Int
  flipCount : Int
  recent : List Flip
  aggUntilTS : Int
deriving Repr, DecidableEq

/-- `types.AppendRecent`: append then keep the most recent `cap` entries. -/
def AppendRecent (rs : List Flip) (f : Flip) (cap : Nat) : List Flip :=
  if (rs ++ [f]).length > cap then (rs ++ [f]).drop ((rs ++ [f]).length - cap)
  else rs ++ [f]

/-- `types.FlapConfig`. -/
structure FlapConfig where
  windowSeconds : Int
  suppressBelow : Int
  aggregateAt : Int
  aggregateMaxItems : Int
  aggregateCooldownSeconds : Int
deriving Repr, DecidableEq

/-! ## Actions (src/internal/flow/common.go) -/

inductive Action where
  | NoOp
  | SuppressFlapping
  | SuppressDedup
  | EdgeTriggeredForward
  | ForwardedAsIs
  | AggregateSent
deriving Repr, DecidableEq

/-! ## Aggregate payload (src/internal/flow/edge_flap.go, BuildAggregate)

The Go function emits a `map[string]any`; here the mapping is rendered as a
structure with one field per key. Decoding a stored flip payload back to an
object (base64url + zstd + JSON, all external libraries) is abstracted as a
`decode : String → Option α` oracle; `none` is the `nil`/`null` object. -/

structure AggItem (α : Type) where
  atTS : Int
  fromVal : String
  toVal : String
  payload : Option α
deriving Repr, DecidableEq

structure Agg (α : Type) where
  typeTag : String
  scope : String
  lastValue : String
  windowStart : Int
  flipCount : Int
  recent : List (AggItem α)
deriving Repr, DecidableEq

/-- `flow.BuildAggregate`. The Go loop walks `recent` from index `num-1`
down to `num-k` (after clamping `k` to `num`), i.e. it collects the last
`k` retained flips newest-first; when `k ≤ 0` (or `recent` is empty) the
loop body is skipped and `items` stays empty. A flip whose stored payload
is empty or fails to decode contributes a `nil` payload. -/
def BuildAggregate {α : Type} (edgeInfo : Edge) (k : Int) (decode : String → Option α) :
    Agg α :=
  let num := edgeInfo.recent.length
  let items : List (AggItem α) :=
    if k > 0 ∧ num > 0 then
      let kk := if k > (num : Int) then (num : Int) else k
      ((edgeInfo.recent.drop (num - kk.toNat)).reverse).map fun it =>
        ⟨it.atTS, it.fromVal, it.toVal,
          if it.payload = "" then none else decode it.payload⟩
    else []
  ⟨"flap_aggregate", edgeInfo.scopeKey, edgeInfo.lastValue,
    edgeInfo.windowStart, edgeInfo.flipCount, items⟩

/-! ## The edge/flap engine (src/internal/flow/edge_flap.go, EvaluateEdgeAndFlap)

The Go function is generic over a `ports.EdgeStore`; here the results the
store hands back are oracle arguments: `loadRes` for `store.Load`,
`casRes prev next` for `store.UpsertCAS`, and `encodeRes` for
`EncodePayload payload`.  `EngineOut.casReq` records the (single)
`UpsertCAS` request the evaluation issued, if any, so that a concrete
store can be threaded through afterwards. -/

structure EngineOut (ε α : Type) where
  action : Action
  agg : Option (Agg α)
  err : Option ε
  casReq : Option (Int × Edge)
deriving Repr, DecidableEq

/-- The state created on first observation (`edgeInfo == nil` branch):
only `LastValue`, `LastChangeTS`, `WindowStart`, `FlipCount` are set; the
remaining fields take Go zero values. -/
def initialEdge (now : Int) (newVal : String) : Edge :=
  ⟨"", newVal, now, now, 0, [], 0⟩

/-- The flip update (lines 65-75): append the flip to `recent` (capped at
128) and refresh `lastValue` / `lastChangeTS`. -/
def appendFlip (e : Edge) (now : Int) (newVal encoded : String) : Edge :=
  { e with
    recent := AppendRecent e.recent ⟨now, e.lastValue, newVal, encoded⟩ HardLimitRecentItems,
    lastValue := newVal,
    lastChangeTS := now }

/-- The window check (lines 80-94): roll to a fresh window or bump the
flip counter. Returns the updated state and the `newWindow` flag. -/
def rollWindow (cfg : FlapConfig) (now : Int) (e : Edge) : Edge × Bool :=
  if cfg.windowSeconds > 0 ∧ now - e.windowStart > cfg.windowSeconds then
    ({ e with
        windowStart := now,
        flipCount := 1,
        recent := if e.recent.length > 0 then e.recent.drop (e.recent.length - 1) else e.recent },
      true)
  else
    ({ e with flipCount := e.flipCount + 1 }, false)

/-- The trailing CAS shared by the no-flap-config and the rolled-window /
no-aggregation paths (lines 122-128). -/
def finalCAS {ε α : Type} (casRes : Int → Edge → Except ε Bool) (ver : Int) (e : Edge) :
    EngineOut ε α :=
  match casRes ver e with
  | .error er => ⟨.NoOp, none, some er, some (ver, e)⟩
  | .ok true => ⟨.EdgeTriggeredForward, none, none, some (ver, e)⟩
  | .ok false => ⟨.NoOp, none, none, some (ver, e)⟩

/-- The aggregate path (lines 103-120), entered with the post-roll state
`e2` when `aggregate_at > 0` and the window did not roll. -/
def aggStage {ε α : Type} (casRes : Int → Edge → Except ε Bool)
    (decode : String → Option α) (now ver : Int) (cfg : FlapConfig) (e2 : Edge) :
    EngineOut ε α :=
  if e2.flipCount ≥ cfg.aggregateAt ∧ now > e2.aggUntilTS ∧
      (e2.recent.length : Int) ≥ cfg.aggregateAt then
    -- `eAgg` sets the cooldown stamp before `BuildAggregate` reads the
    -- state; `recent` is cleared only afterwards.
    match casRes ver { e2 with aggUntilTS := now + cfg.aggregateCooldownSeconds, recent := [] } with
    | .error er =>
      ⟨.SuppressFlapping, none, some er,
        some (ver, { e2 with aggUntilTS := now + cfg.aggregateCooldownSeconds, recent := [] })⟩
    | .ok true =>
      ⟨.AggregateSent,
        some (BuildAggregate { e2 with aggUntilTS := now + cfg.aggregateCooldownSeconds }
          cfg.aggregateMaxItems decode),
        none,
        some (ver, { e2 with aggUntilTS := now + cfg.aggregateCooldownSeconds, recent := [] })⟩
    | .ok false =>
      ⟨.NoOp, none, none,
        some (ver, { e2 with aggUntilTS := now + cfg.aggregateCooldownSeconds, recent := [] })⟩
  else
    match casRes ver e2 with
    | .error er => ⟨.SuppressFlapping, none, some er, some (ver, e2)⟩
    | .ok true => ⟨.SuppressFlapping, none, none, some (ver, e2)⟩
    | .ok false => ⟨.NoOp, none, none, some (ver, e2)⟩

/-- The flapping-control block (lines 78-121), entered with the
post-append state `e1` when a flap config is present. -/
def flapStage {ε α : Type} (casRes : Int → Edge → Except ε Bool)
    (decode : String → Option α) (now ver : Int) (cfg : FlapConfig) (e1 : Edge) :
    EngineOut ε α :=
  if (rollWindow cfg now e1).1.flipCount ≤ cfg.suppressBelow then
    -- Suppress initial flips under tolerance; CAS result ignored.
    ⟨.SuppressFlapping, none, none, some (ver, (rollWindow cfg now e1).1)⟩
  else if cfg.aggregateAt > 0 ∧ (rollWindow cfg now e1).2 = false then
    aggStage casRes decode now ver cfg (rollWindow cfg now e1).1
  else finalCAS casRes ver (rollWindow cfg now e1).1

/-- `flow.EvaluateEdgeAndFlap`. -/
def EvaluateEdgeAndFlap {ε α : Type}
    (loadRes : Except ε (Option Edge × Int))
    (encodeRes : Except ε String)
    (casRes : Int → Edge → Except ε Bool)
    (decode : String → Option α)
    (now : Int) (newVal : String) (f : Option FlapConfig) :
    EngineOut ε α :=
  match loadRes with
  | .error e => ⟨.NoOp, none, some e, none⟩
  | .ok (none, _ver) =>
    match casRes 0 (initialEdge now newVal) with
    | .error e => ⟨.NoOp, none, some e, some (0, initialEdge now newVal)⟩
    | .ok true => ⟨.EdgeTriggeredForward, none, none, some (0, initialEdge now newVal)⟩
    | .ok false => ⟨.SuppressFlapping, none, none, some (0, initialEdge now newVal)⟩
  | .ok (some e0, ver) =>
    if e0.lastValue = newVal then
      -- Stable: no change, no write.
      ⟨.NoOp, none, none, none⟩
    else
      match encodeRes with
      | .error er => ⟨.NoOp, none, some er, none⟩
      | .ok encoded =>
        match f with
        | none => finalCAS casRes ver (appendFlip e0 now newVal encoded)
        | some cfg => flapStage casRes decode now ver cfg (appendFlip e0 now newVal encoded)

/-! ## Store backends

A `Store` models the record a single `(clientID, scopeKey)` pair owns:
`none` when no record exists, otherwise the `Edge` value together with
the stored `ver` attribute. -/

abbrev Store := Option (Edge × Int)

namespace Ddb

/-- `ddb.DataStore.Load` (src/internal/backends/ddb/datastore.go): a
missing item yields `(nil, 0)`, otherwise the unmarshalled state and its
`ver` attribute. -/
def Load (s : Store) : Option Edge × Int :=
  match s with
  | none => (none, 0)
  | some (e, v) => (some e, v)

/-- `ddb.DataStore.UpsertCAS`. `prevVersion == 0` issues a `PutItem`
conditioned on `attribute_not_exists` (create-only, stored `ver` becomes
1); `prevVersion > 0` issues an `UpdateItem` conditioned on
`ver = prevVersion` (fails when the item is missing, too), setting
`ver = prevVersion + 1`. A conditional-check failure is `(false, nil)`.
The backend forces `next.ScopeKey = scopeKey` before writing. -/
def UpsertCAS (s : Store) (scopeKey : String) (prevVersion : Int) (next : Edge) :
    Bool × Store :=
  let next1 := { next with scopeKey := scopeKey }
  if prevVersion = 0 then
    match s with
    | none => (true, some (next1, 1))
    | some _ => (false, s)
  else
    match s with
    | none => (false, s)
    | some (_, v) =>
      if v = prevVersion then (true, some (next1, prevVersion + 1)) else (false, s)

end Ddb

namespace Redis

/-- `redis.DataStore.UpsertCAS` (src/unnamed/part_001). With
`prevVersion == 0` the code issues an unconditional `HMSet` of all fields
with `ver = 1` and returns `true` — it never checks whether the hash
already exists. With `prevVersion > 0` it reads `ver` (missing hash →
`(false, nil)`), compares, and on match `HMSet`s with `ver + 1`. -/
def UpsertCAS (s : Store) (scopeKey : String) (prevVersion : Int) (next : Edge) :
    Bool × Store :=
  let next1 := { next with scopeKey := scopeKey }
  if prevVersion = 0 then
    (true, some (next1, 1))
  else
    match s with
    | none => (false, s)
    | some (_, v) =>
      if v ≠ prevVersion then (false, s) else (true, some (next1, v + 1))

end Redis

/-! ## The engine threaded over the DynamoDB-modelled store

`EvaluateEdgeAndFlap` issues one `Load` and at most one `UpsertCAS`, so
running it against a concrete store amounts to answering the load and the
recorded CAS request from that store. -/

def engineStep {α : Type} (scopeKey : String) (s : Store)
    (encoded : String) (decode : String → Option α)
    (now : Int) (newVal : String) (f : Option FlapConfig) :
    EngineOut Unit α × Store :=
  (EvaluateEdgeAndFlap (ε := Unit) (.ok (Ddb.Load s)) (.ok encoded)
      (fun prev next => .ok (Ddb.UpsertCAS s scopeKey prev next).1) decode now newVal f,
    match (EvaluateEdgeAndFlap (ε := Unit) (.ok (Ddb.Load s)) (.ok encoded)
        (fun prev next => .ok (Ddb.UpsertCAS s scopeKey prev next).1) decode now newVal f).casReq with
    | some (prev, next) => (Ddb.UpsertCAS s scopeKey prev next).2
    | none => s)

/-- One engine invocation's inputs, for sequences of calls. -/
structure Call where
  now : Int
  newVal : String
  f : Option FlapConfig
  encoded : String
deriving Repr, DecidableEq

/-- Run a sequence of engine evaluations against the store, collecting
the returned actions. -/
def runCalls {α : Type} (scopeKey : String) (decode : String → Option α) :
    Store → List Call → List Action × Store
  | s, [] => ([], s)
  | s, c :: rest =>
    let r := engineStep scopeKey s c.encoded decode c.now c.newVal c.f
    let tail := runCalls scopeKey decode r.2 rest
    (r.1.action :: tail.1, tail.2)

/-! ## Rate limiter (fixed-window counters)

A `Bucket` models one `(scope, epoch_minute)` counter row: the `count`
and `ttl` attributes. The table-level functions key buckets by
`(scope, now / 60)` exactly as the Go code computes `epochMin`. -/

structure Bucket where
  count : Nat
  ttl : Int
deriving Repr, DecidableEq

def epochMin (now : Int) : Int := now / 60

namespace Ddb

/-- `ddb.DataStore.Acquire`, restricted to the single bucket the call
addresses. `ratePerWindow <= 0` short-circuits to `false`. Otherwise a
single conditional `UpdateItem` runs
`SET #ttl = if_not_exists(#ttl, :ttl) ADD #count :one` under condition
`attribute_not_exists(#count) OR #count < :cap`: on a missing row the
count initializes to 0 and becomes 1 and the ttl is set to
`now + window + 120`; on an existing row the ttl is untouched and the
count increments only when it is under the cap; a conditional-check
failure leaves the row alone and returns `false`. -/
def AcquireBucket (b : Option Bucket) (ratePerWindow : Int) (now window : Int) :
    Bool × Option Bucket :=
  if ratePerWindow ≤ 0 then (false, b)
  else
    match b with
    | none => (true, some ⟨1, now + window + 120⟩)
    | some bk =>
      if (bk.count : Int) < ratePerWindow then (true, some ⟨bk.count + 1, bk.ttl⟩)
      else (false, some bk)

/-- The full `Acquire`: the bucket operated on is the one keyed
`(scope, epochMin now)` (Go: `PK = RATE#scope`, `SK = WIN#epochMin`);
every other bucket is untouched. -/
def Acquire (table : (String × Int) → Option Bucket)
    (scope : String) (ratePerWindow : Int) (now window : Int) :
    Bool × ((String × Int) → Option Bucket) :=
  let key := (scope, epochMin now)
  let r := AcquireBucket (table key) ratePerWindow now window
  (r.1, fun k => if k = key then r.2 else table k)

end Ddb

namespace Redis

/-- `redis.DataStore.Acquire` (src/unnamed/part_001), restricted to the
bucket it addresses (keyed by `(key, epochMin)` in the Go code).
`ratePerWindow <= 0` short-circuits to `false`; a missing bucket is
incremented to 1 and given an expiry of `2*window` (only at creation);
an existing bucket at or above the cap is left alone (`false`); below
the cap it is incremented by one (`true`, ttl untouched). -/
def AcquireBucket (b : Option Bucket) (ratePerWindow : Int) (now window : Int) :
    Bool × Option Bucket :=
  if ratePerWindow ≤ 0 then (false, b)
  else
    match b with
    | none => (true, some ⟨1, now + 2 * window⟩)
    | some bk =>
      if (bk.count : Int) ≥ ratePerWindow then (false, some bk)
      else (true, some ⟨bk.count + 1, bk.ttl⟩)

end Redis

/-- A sequence of acquisitions against one bucket with a fixed cap,
counting how many were granted. Each call carries its own `(now, window)`
pair (the ttl being the only field they influence). -/
def acquireSeq (cap : Int) : Option Bucket → List (Int × Int) → Nat × Option Bucket
  | b, [] => (0, b)
  | b, (now, window) :: rest =>
    let r := Ddb.AcquireBucket b cap now window
    let tail := acquireSeq cap r.2 rest
    ((if r.1 then 1 else 0) + tail.1, tail.2)

/-- Bucket occupancy, for the sequential counting argument. -/
def countOf : Option Bucket → Nat
  | none => 0
  | some bk => bk.count

/-! ## Tenant configuration (src/internal/types/state.go) -/

def ClientIDMinLength : Nat := 4
def ClientKeyMinLength : Nat := 8
def MinWindowSizeSeconds : Int := 10

structure Passthrough where
  fieldExpr : String
  negate : Bool
deriving Repr, DecidableEq

structure TargetConfig where
  snsArn : String
  snsRPM : Int
deriving Repr, DecidableEq

structure TriggerConfig where
  fieldExpr : String
  scopeFields : List String
  target : TargetConfig
  flapping : Option FlapConfig
deriving Repr, DecidableEq

structure ClientConfig where
  clientID : String
  clientName : String
  clientKey : String
  ipRPM : Int
  clientRPM : Int
  passthrough : Passthrough
  trigger : TriggerConfig
deriving Repr, DecidableEq

/-- `types.ClientConfig.Validate`. Returns the first failing check's
error message, or `none` when the configuration is accepted. -/
def ClientConfig.Validate (c : ClientConfig) : Option String :=
  if c.clientID = "" then some "client_id is required"
  else if c.clientName = "" then some "client_name is required"
  else if c.clientKey = "" then some "client_key is required"
  else if c.clientKey.length < ClientKeyMinLength then
    some "api_key must be at least 8 characters"
  else if c.ipRPM < 0 then some "ip_rpm must be non-negative. 0 for non limit"
  else if c.clientRPM < 0 then some "client_rpm must be non-negative. 0 for non limit"
  else
    match c.trigger.flapping with
    | none => none
    | some fl =>
      if fl.windowSeconds < MinWindowSizeSeconds then
        some "flapping.window_seconds must be greater than or equal to 10 seconds"
      else if fl.suppressBelow < 0 ∨ fl.suppressBelow > fl.windowSeconds then
        some "flapping.suppress_below must be non-negative and less than or equal to window_seconds"
      else none

/-! ## Scope-key fingerprint (src/internal/flow/common.go, ComputeKey)

`ComputeKey` hashes the trigger expression with 32-bit FNV-1a over its
UTF-8 bytes and renders it as `"e" ++ decimal`. -/

def charUtf8 (c : Char) : List Nat :=
  let n := c.toNat
  if n < 0x80 then [n]
  else if n < 0x800 then
    [0xC0 ||| (n >>> 6), 0x80 ||| (n &&& 0x3F)]
  else if n < 0x10000 then
    [0xE0 ||| (n >>> 12), 0x80 ||| ((n >>> 6) &&& 0x3F), 0x80 ||| (n &&& 0x3F)]
  else
    [0xF0 ||| (n >>> 18), 0x80 ||| ((n >>> 12) &&& 0x3F),
      0x80 ||| ((n >>> 6) &&& 0x3F), 0x80 ||| (n &&& 0x3F)]

def utf8Bytes (s : String) : List Nat :=
  s.data.flatMap charUtf8

def fnv1a32 (bytes : List Nat) : Nat :=
  bytes.foldl (fun h b => ((h ^^^ b) * 16777619) % 2 ^ 32) 2166136261

def ComputeKey (s : String) : String :=
  "e" ++ toString (fnv1a32 (utf8Bytes s))

/-! ## Pass-through (src/internal/flow/passthrough.go)

The JMESPath evaluation `EvalAny(expr, payload)` is abstracted as an
oracle `evalRes : Option Bool`: `none` when the evaluation errored or the
result was not a boolean, `some b` for a boolean result `b`. -/

def CheckPassthrough (cfg : Passthrough) (evalRes : Option Bool) : Bool :=
  if cfg.fieldExpr = "" then false
  else
    match evalRes with
    | none => false
    | some matched => if cfg.negate then !matched else matched

/-! ## The request pipeline (src/internal/flow/common.go, Run)

HTTP status codes used by the pipeline. -/

def StatusAccepted : Nat := 202
def StatusBadRequest : Nat := 400
def StatusTooManyRequests : Nat := 429
def StatusInternalServerError : Nat := 500

/-- The error values `Run` can return (`fmt.Errorf` messages in Go). -/
inductive RunErr where
  | rateLimitCheckFailed
  | rateLimitIP
  | rateLimitClient
  | triggerEvalError
  | edgeEvalError
deriving Repr, DecidableEq

structure RunOut (α : Type) where
  action : Action
  statusCode : Nat
  err : Option RunErr
  /-- The replacement payload: after the engine ran, `newPayload` holds
  the aggregate (or `nil`); the transport publishes the original payload
  for forward actions and this aggregate for `AggregateSent`. -/
  agg : Option (Agg α)
  /-- The edge-state record after the pipeline finished. -/
  store : Store
  /-- The `(scope, ratePerWindow)` pairs handed to `Acquire`, in order. -/
  acquires : List (String × Int)
deriving Repr, DecidableEq

/-- The target rate-limit step (common.go lines 136-151) followed by the
final return. Runs only after the action and the edge store are settled. -/
def targetStage {α : Type} (clientID : String) (cc : ClientConfig)
    (acquire : String → Int → Except Unit Bool)
    (action : Action) (agg : Option (Agg α)) (store : Store)
    (trace : List (String × Int)) : RunOut α :=
  if (action = .EdgeTriggeredForward ∨ action = .AggregateSent) ∧
      cc.trigger.target.snsRPM > 0 then
    match acquire ("TARGET:" ++ clientID ++ ":" ++ cc.trigger.target.snsArn)
        cc.trigger.target.snsRPM with
    | .error _ =>
      ⟨action, StatusInternalServerError, some .rateLimitCheckFailed, agg, store,
        trace ++ [("TARGET:" ++ clientID ++ ":" ++ cc.trigger.target.snsArn,
          cc.trigger.target.snsRPM)]⟩
    | .ok true =>
      ⟨action, StatusAccepted, none, agg, store,
        trace ++ [("TARGET:" ++ clientID ++ ":" ++ cc.trigger.target.snsArn,
          cc.trigger.target.snsRPM)]⟩
    | .ok false =>
      ⟨.NoOp, StatusTooManyRequests, none, agg, store,
        trace ++ [("TARGET:" ++ clientID ++ ":" ++ cc.trigger.target.snsArn,
          cc.trigger.target.snsRPM)]⟩
  else ⟨action, StatusAccepted, none, agg, store, trace⟩

/-- `flow.Run` (the variant the HTTP handler calls, src/internal/flow/common.go).
The rate limiter is an oracle `acquire scope rpm` (the window argument is
always one minute in the code); `store` is the edge-state record for the
scope key the trigger expression fingerprints to; `passEval` and
`evalStr` are the JMESPath oracle results for the pass-through rule and
the trigger field; `encoded` is the `EncodePayload` result for the
request payload. -/
def passStage {α : Type} (clientID : String) (cc : ClientConfig)
    (acquire : String → Int → Except Unit Bool)
    (store : Store)
    (passEval : Option Bool)
    (evalStr : Except Unit (Option String))
    (encoded : String) (decode : String → Option α) (now : Int)
    (trace : List (String × Int)) : RunOut α :=
  -- If pass through mode matched, just acknowledge
  if CheckPassthrough cc.passthrough passEval then
    ⟨.ForwardedAsIs, StatusAccepted, none, none, store, trace⟩
  -- If the trigger field is empty, always forward
  else if cc.trigger.fieldExpr = "" then
    ⟨.ForwardedAsIs, StatusAccepted, none, none, store, trace⟩
  else
    match evalStr with
    | .error _ =>
      ⟨.NoOp, StatusBadRequest, some .triggerEvalError, none, store, trace⟩
    | .ok none =>
      -- newVal is nil: skip the engine, fall through with action = NoOp
      targetStage clientID cc acquire .NoOp none store trace
    | .ok (some newVal) =>
      match (engineStep (ComputeKey cc.trigger.fieldExpr) store encoded decode now newVal
          cc.trigger.flapping).1.err with
      | some _ =>
        ⟨(engineStep (ComputeKey cc.trigger.fieldExpr) store encoded decode now newVal
            cc.trigger.flapping).1.action,
          StatusInternalServerError, some .edgeEvalError, none,
          (engineStep (ComputeKey cc.trigger.fieldExpr) store encoded decode now newVal
            cc.trigger.flapping).2, trace⟩
      | none =>
        targetStage clientID cc acquire
          (engineStep (ComputeKey cc.trigger.fieldExpr) store encoded decode now newVal
            cc.trigger.flapping).1.action
          (engineStep (ComputeKey cc.trigger.fieldExpr) store encoded decode now newVal
            cc.trigger.flapping).1.agg
          (engineStep (ComputeKey cc.trigger.fieldExpr) store encoded decode now newVal
            cc.trigger.flapping).2 trace

def clientLimitStage {α : Type} (clientID : String) (cc : ClientConfig)
    (acquire : String → Int → Except Unit Bool)
    (store : Store)
    (passEval : Option Bool)
    (evalStr : Except Unit (Option String))
    (encoded : String) (decode : String → Option α) (now : Int)
    (trace : List (String × Int)) : RunOut α :=
  if cc.clientRPM > 0 then
    match acquire ("CLIENT:" ++ clientID) cc.clientRPM with
    | .error _ =>
      ⟨.NoOp, StatusAccepted, some .rateLimitCheckFailed, none, store,
        trace ++ [("CLIENT:" ++ clientID, cc.clientRPM)]⟩
    | .ok false =>
      ⟨.NoOp, StatusAccepted, some .rateLimitClient, none, store,
        trace ++ [("CLIENT:" ++ clientID, cc.clientRPM)]⟩
    | .ok true =>
      passStage clientID cc acquire store passEval evalStr encoded decode now
        (trace ++ [("CLIENT:" ++ clientID, cc.clientRPM)])
  else passStage clientID cc acquire store passEval evalStr encoded decode now trace

def Run {α : Type} (clientID clientIP : String) (cc : ClientConfig)
    (acquire : String → Int → Except Unit Bool)
    (store : Store)
    (passEval : Option Bool)
    (evalStr : Except Unit (Option String))
    (encoded : String) (decode : String → Option α) (now : Int) : RunOut α :=
  -- Rate limits: IP + client
  if cc.ipRPM > 0 then
    match acquire ("IP:" ++ clientIP) cc.ipRPM with
    | .error _ =>
      ⟨.NoOp, StatusAccepted, some .rateLimitCheckFailed, none, store,
        [("IP:" ++ clientIP, cc.ipRPM)]⟩
    | .ok false =>
      ⟨.NoOp, StatusAccepted, some .rateLimitIP, none, store,
        [("IP:" ++ clientIP, cc.ipRPM)]⟩
    | .ok true =>
      clientLimitStage clientID cc acquire store passEval evalStr encoded decode now
        [("IP:" ++ clientIP, cc.ipRPM)]
  else clientLimitStage clientID cc acquire store passEval evalStr encoded decode now []

/-- Which actions make the HTTP handler publish to the downstream topic
(src/internal/api/httphandler.go, the switch in handleNotify): the
`NoOp`/`SuppressFlapping`/`SuppressDedup` arm only writes the status
body; the other two arms call `Pub.PublishRaw`. -/
def publishes (a : Action) : Bool :=
  match a with
  | .NoOp | .SuppressFlapping | .SuppressDedup => false
  | .AggregateSent | .EdgeTriggeredForward | .ForwardedAsIs => true

/-! ## HTTP body handling (src/internal/api/httphandler.go, handleNotify)

The handler reads the body through `io.ReadAll(io.LimitReader(r.Body, 1<<20))`
— the body is silently truncated to its first 1 MiB — then rejects an
empty result with 400 and otherwise hands the (possibly truncated) bytes
to the JSON decoder. -/

def maxBodyBytes : Nat := 1 <<< 20

inductive BodyOutcome where
  /-- `http.Error(w, "empty body", http.StatusBadRequest)` -/
  | badRequestEmpty
  /-- the handler proceeds to `json.Unmarshal` on these bytes -/
  | decodeStage (body : List Char)
deriving Repr, DecidableEq

def readNotifyBody (body : List Char) : BodyOutcome :=
  let limited := body.take maxBodyBytes
  if limited.length = 0 then .badRequestEmpty else .decodeStage limited

/-! # Theorems -/

/-! ## Supporting lemmas about the engine stages -/

lemma finalCAS_err_shape {ε α : Type} (casRes : Int → Edge → Except ε Bool)
    (ver : Int) (e : Edge) (er : ε)
    (h : (finalCAS (α := α) casRes ver e).err = some er) :
    (finalCAS (α := α) casRes ver e).action = .NoOp ∧
    (finalCAS (α := α) casRes ver e).agg = none := by
  unfold finalCAS at h ⊢
  split <;> simp_all

lemma aggStage_err_shape {ε α : Type} (casRes : Int → Edge → Except ε Bool)
    (decode : String → Option α) (now ver : Int) (cfg : FlapConfig) (e2 : Edge) (er : ε)
    (h : (aggStage casRes decode now ver cfg e2).err = some er) :
    (aggStage casRes decode now ver cfg e2).action = .SuppressFlapping ∧
    (aggStage casRes decode now ver cfg e2).agg = none := by
  unfold aggStage at h ⊢
  split at h <;> split at h <;> simp_all <;> split <;> simp_all
  all_goals omega

lemma flapStage_err_shape {ε α : Type} (casRes : Int → Edge → Except ε Bool)
    (decode : String → Option α) (now ver : Int) (cfg : FlapConfig) (e1 : Edge) (er : ε)
    (h : (flapStage casRes decode now ver cfg e1).err = some er) :
    ((flapStage casRes decode now ver cfg e1).action = .SuppressFlapping ∨
      (flapStage casRes decode now ver cfg e1).action = .NoOp) ∧
    (flapStage casRes decode now ver cfg e1).agg = none := by
  unfold flapStage at h ⊢
  split at h
  · simp_all
  · rename_i hs
    split at h
    · rename_i ha
      rw [if_neg hs, if_pos ha]
      have := aggStage_err_shape casRes decode now ver cfg _ er h
      exact ⟨Or.inl this.1, this.2⟩
    · rename_i ha
      rw [if_neg hs, if_neg ha]
      have := finalCAS_err_shape casRes ver _ er h
      exact ⟨Or.inr this.1, this.2⟩

/-! ## C10: engine errors never instruct the caller to publish -/

/-- Claim C10: whenever `EvaluateEdgeAndFlap` returns a non-nil error, the
returned action is neither `EdgeTriggeredForward` nor `AggregateSent`,
and the returned replacement payload is nil. -/
theorem claim10_engine_error_no_forward {ε α : Type}
    (loadRes : Except ε (Option Edge × Int)) (encodeRes : Except ε String)
    (casRes : Int → Edge → Except ε Bool) (decode : String → Option α)
    (now : Int) (newVal : String) (f : Option FlapConfig) (er : ε)
    (h : (EvaluateEdgeAndFlap loadRes encodeRes casRes decode now newVal f).err = some er) :
    (EvaluateEdgeAndFlap loadRes encodeRes casRes decode now newVal f).action
        ≠ .EdgeTriggeredForward ∧
    (EvaluateEdgeAndFlap loadRes encodeRes casRes decode now newVal f).action
        ≠ .AggregateSent ∧
    (EvaluateEdgeAndFlap loadRes encodeRes casRes decode now newVal f).agg = none := by
  unfold EvaluateEdgeAndFlap at h ⊢
  split at h
  · simp_all
  · split at h <;> simp_all
  · rename_i e0 ver
    split at h
    · simp_all
    · split at h
      · simp_all
      · split at h
        · rename_i henc _
          have := finalCAS_err_shape (α := α) casRes ver _ er h
          simp_all
        · rename_i henc cfg
          have := flapStage_err_shape casRes decode now ver cfg _ er h
          rcases this with ⟨hact | hact, hagg⟩ <;> simp_all

/-- Witness for C10 at a concrete erroring load. -/
theorem claim10_witness :
    (EvaluateEdgeAndFlap (ε := Unit) (α := Unit) (.error ()) (.ok "")
        (fun _ _ => .ok true) (fun _ => none) 0 "v" none).err = some () ∧
    (EvaluateEdgeAndFlap (ε := Unit) (α := Unit) (.error ()) (.ok "")
        (fun _ _ => .ok true) (fun _ => none) 0 "v" none).action ≠ .EdgeTriggeredForward := by
  refine ⟨rfl, ?_⟩
  exact (claim10_engine_error_no_forward (.error ()) (.ok "") (fun _ _ => .ok true)
    (fun _ => none) 0 "v" none () rfl).1

/-! ## C6: CAS semantics of the state store -/

/-- A record already present in the store (version 5). -/
def edgeExisting : Edge := ⟨"sk", "a", 1, 1, 0, [], 0⟩

/-- The next state a caller tries to create with `prevVersion = 0`. -/
def edgeNext : Edge := ⟨"", "b", 2, 2, 0, [], 0⟩

/-- Claim C6, code bug in the Redis backend: `UpsertCAS` with `prev_version = 0`
must be create-only, and the DynamoDB backend indeed refuses when a
record exists; but the Redis backend commits anyway, overwriting the
existing record and resetting its version to 1, contradicting its own
doc comment and the `ports.EdgeStore` contract. -/
theorem claim6_redis_create_not_create_only :
    (Redis.UpsertCAS (some (edgeExisting, 5)) "sk" 0 edgeNext).1 = true ∧
    (Redis.UpsertCAS (some (edgeExisting, 5)) "sk" 0 edgeNext).2
        = some ({ edgeNext with scopeKey := "sk" }, 1) ∧
    (Ddb.UpsertCAS (some (edgeExisting, 5)) "sk" 0 edgeNext).1 = false ∧
    (Ddb.UpsertCAS (some (edgeExisting, 5)) "sk" 0 edgeNext).2 = some (edgeExisting, 5) := by
  refine ⟨rfl, rfl, ?_, ?_⟩ <;> simp [Ddb.UpsertCAS]

/-! ## C8: configuration validation -/

/-- A configuration whose `client_id` has only 3 characters but which
passes every check `Validate` actually performs. -/
def cfgShortID : ClientConfig :=
  ⟨"abc", "name", "12345678", 0, 0, ⟨"", false⟩, ⟨"", [], ⟨"", 0⟩, none⟩⟩

/-- Claim C8, code bug: the spec requires `tenant_id` to be at least 4
characters (`ClientIDMinLength = 4` is even declared in the source), yet
`Validate` only rejects an empty `client_id`: a 3-character tenant id is
accepted. -/
theorem claim8_short_client_id_accepted :
    cfgShortID.clientID.length < ClientIDMinLength ∧
    cfgShortID.Validate = none := by
  constructor
  · decide
  · rfl

/-! ## C9: oversized request bodies -/

/-- A request body one byte longer than 1 MiB. -/
def oversizedBody : List Char := List.replicate (maxBodyBytes + 1) 'a'

/-- Claim C9, code bug: the handler never rejects an oversized body; it
silently truncates it to the first 1 MiB (`io.LimitReader`) and proceeds
to JSON-decode the truncated bytes instead of answering 400. -/
theorem claim9_oversized_body_truncated :
    oversizedBody.length > maxBodyBytes ∧
    readNotifyBody oversizedBody = .decodeStage (oversizedBody.take maxBodyBytes) := by
  have h1 : oversizedBody.length = maxBodyBytes + 1 := List.length_replicate ..
  have h2 : (oversizedBody.take maxBodyBytes).length = min maxBodyBytes (maxBodyBytes + 1) := by
    rw [List.length_take, h1]
  have hm : 0 < maxBodyBytes := Nat.pos_of_ne_zero (by decide)
  have hne : ¬ (oversizedBody.take maxBodyBytes).length = 0 := by omega
  refine ⟨by omega, ?_⟩
  simp only [readNotifyBody]
  rw [if_neg hne]

/-! ## C4: aggregate payload construction -/

/-- A decode oracle that always fails (every stored payload is opaque). -/
def dec0 : String → Option Unit := fun _ => none

def flipOlder : Flip := ⟨1, "x", "y", "p1"⟩
def flipNewer : Flip := ⟨2, "y", "x", "p2"⟩

/-- An edge state retaining two flips (older first, newest last). -/
def edgeTwoFlips : Edge := ⟨"s", "x", 2, 0, 2, [flipOlder, flipNewer], 0⟩

/-- Claim C4, counterexample: with `aggregate_max_items = 0` and `n = 2`
retained flips, the emitted `recent` list is empty — not "all n flips" as
the claim states; and with `k = 2` the items are emitted newest FIRST
(`at` timestamps `[2, 1]`), not newest last. -/
theorem claim4_counterexample :
    (BuildAggregate edgeTwoFlips 0 dec0).recent = [] ∧
    edgeTwoFlips.recent.length = 2 ∧
    (BuildAggregate edgeTwoFlips 2 dec0).recent.map (fun it => it.atTS) = [2, 1] := by
  refine ⟨rfl, rfl, ?_⟩
  rfl

/-- Claim C4, amended: the emitted mapping has type `"flap_aggregate"` and
carries `scope_key`, `last_value`, `window_start` and `flip_count`; its
`recent` list holds the last `min(k, n)` flips when `k > 0` — newest
FIRST — and is EMPTY when `k = 0`; a flip whose stored payload is empty
or fails to decode contributes a null payload (visible in the emitted
item function); the list length is at most `aggregate_max_items` when
that is > 0 and 0 (hence at most 128) otherwise. -/
theorem claim4_build_aggregate_amended {α : Type} (e : Edge) (k : Int)
    (decode : String → Option α) :
    (BuildAggregate e k decode).typeTag = "flap_aggregate" ∧
    (BuildAggregate e k decode).scope = e.scopeKey ∧
    (BuildAggregate e k decode).lastValue = e.lastValue ∧
    (BuildAggregate e k decode).windowStart = e.windowStart ∧
    (BuildAggregate e k decode).flipCount = e.flipCount ∧
    (k ≤ 0 → (BuildAggregate e k decode).recent = []) ∧
    (0 < k → (BuildAggregate e k decode).recent
        = (e.recent.reverse.take k.toNat).map
            (fun it => ⟨it.atTS, it.fromVal, it.toVal,
              if it.payload = "" then none else decode it.payload⟩)) ∧
    (0 < k → ((BuildAggregate e k decode).recent.length : Int) ≤ k) := by
  have hmain : 0 < k → (BuildAggregate e k decode).recent
      = (e.recent.reverse.take k.toNat).map
          (fun it => (⟨it.atTS, it.fromVal, it.toVal,
            if it.payload = "" then none else decode it.payload⟩ : AggItem α)) := by
    intro hk
    by_cases hnum : e.recent.length = 0
    · rw [List.length_eq_zero.mp hnum]
      simp [BuildAggregate, hnum]
    · have hpos : 0 < e.recent.length := Nat.pos_of_ne_zero hnum
      show (if k > 0 ∧ e.recent.length > 0 then _ else _) = _
      rw [if_pos ⟨hk, hpos⟩]
      by_cases hkn : k > (e.recent.length : Int)
      · rw [if_pos hkn, List.reverse_drop]
        have h1 : e.recent.length - (e.recent.length -
            ((e.recent.length : Int)).toNat) = e.recent.length := by omega
        rw [h1]
        have h2 : e.recent.reverse.take e.recent.length = e.recent.reverse := by
          rw [← List.length_reverse e.recent]
          exact List.take_length e.recent.reverse
        have h3 : e.recent.reverse.take k.toNat = e.recent.reverse := by
          apply List.take_of_length_le
          rw [List.length_reverse]
          omega
        rw [h2, h3]
      · rw [if_neg hkn, List.reverse_drop]
        have h1 : e.recent.length - (e.recent.length - k.toNat) = k.toNat := by omega
        rw [h1]
  refine ⟨rfl, rfl, rfl, rfl, rfl, ?_, hmain, ?_⟩
  · intro hk
    show (if k > 0 ∧ e.recent.length > 0 then _ else _) = _
    rw [if_neg]
    rintro ⟨hc, _⟩
    omega
  · intro hk
    rw [hmain hk, List.length_map, List.length_take]
    have := List.length_reverse e.recent
    omega

/-! ## Lemmas about AppendRecent, finalCAS, and the stage functions -/

lemma appendRecent_length_pos (rs : List Flip) (f : Flip) (cap : Nat) (hc : 0 < cap) :
    0 < (AppendRecent rs f cap).length := by
  have hl : (rs ++ [f]).length = rs.length + 1 := by simp
  unfold AppendRecent
  split
  · rename_i hgt
    rw [List.length_drop, hl]
    rw [hl] at hgt
    omega
  · rw [hl]
    omega

lemma appendRecent_drop_last (rs : List Flip) (f : Flip) (cap : Nat) (hc : 0 < cap) :
    (AppendRecent rs f cap).drop ((AppendRecent rs f cap).length - 1) = [f] := by
  have hl : (rs ++ [f]).length = rs.length + 1 := by simp
  unfold AppendRecent
  split
  · rename_i hgt
    rw [List.length_drop, List.drop_drop]
    have harith : (rs ++ [f]).length - cap +
        ((rs ++ [f]).length - ((rs ++ [f]).length - cap) - 1) = rs.length := by omega
    rw [harith]
    exact List.drop_left rs [f]
  · rw [hl]
    have harith : rs.length + 1 - 1 = rs.length := by omega
    rw [harith]
    exact List.drop_left rs [f]

lemma finalCAS_casReq {ε α : Type} (casRes : Int → Edge → Except ε Bool)
    (ver : Int) (e : Edge) :
    (finalCAS (α := α) casRes ver e).casReq = some (ver, e) := by
  unfold finalCAS
  split <;> rfl

lemma finalCAS_ok_true {ε α : Type} (casRes : Int → Edge → Except ε Bool)
    (ver : Int) (e : Edge) (h : casRes ver e = .ok true) :
    finalCAS (α := α) casRes ver e = ⟨.EdgeTriggeredForward, none, none, some (ver, e)⟩ := by
  unfold finalCAS
  rw [h]

lemma aggStage_casReq_proj {ε α : Type} (casRes : Int → Edge → Except ε Bool)
    (decode : String → Option α) (now ver : Int) (cfg : FlapConfig) (e2 : Edge) :
    ((aggStage casRes decode now ver cfg e2).casReq.map
      (fun p => (p.1, p.2.flipCount, p.2.windowStart)))
      = some (ver, e2.flipCount, e2.windowStart) := by
  unfold aggStage
  split <;> (split <;> rfl)

lemma flapStage_casReq_proj {ε α : Type} (casRes : Int → Edge → Except ε Bool)
    (decode : String → Option α) (now ver : Int) (cfg : FlapConfig) (e1 : Edge) :
    ((flapStage casRes decode now ver cfg e1).casReq.map
      (fun p => (p.1, p.2.flipCount, p.2.windowStart)))
      = some (ver, (rollWindow cfg now e1).1.flipCount,
          (rollWindow cfg now e1).1.windowStart) := by
  unfold flapStage
  split
  · rfl
  · split
    · exact aggStage_casReq_proj casRes decode now ver cfg _
    · rw [finalCAS_casReq]
      rfl

/-- On a flip with a flap config, the engine evaluates to `flapStage` over
the appended state. -/
lemma evaluate_flip_flap {ε α : Type} (casRes : Int → Edge → Except ε Bool)
    (decode : String → Option α) (now ver : Int) (newVal enc : String)
    (e0 : Edge) (cfg : FlapConfig) (hne : ¬ e0.lastValue = newVal) :
    EvaluateEdgeAndFlap (.ok (some e0, ver)) (.ok enc) casRes decode now newVal (some cfg)
      = flapStage casRes decode now ver cfg (appendFlip e0 now newVal enc) := by
  simp [EvaluateEdgeAndFlap, hne]

/-- The state a rolled window leaves behind: the flip just appended is
the only retained one, the window restarts at `now`, the counter is 1. -/
def rolledEdge (e0 : Edge) (now : Int) (newVal enc : String) : Edge :=
  { e0 with
    lastValue := newVal,
    lastChangeTS := now,
    windowStart := now,
    flipCount := 1,
    recent := [⟨now, e0.lastValue, newVal, enc⟩] }

/-- When the window rolls, `rollWindow` keeps exactly the just-appended
flip and resets the window fields. -/
lemma rollWindow_rolled (cfg : FlapConfig) (now : Int) (e0 : Edge) (newVal enc : String)
    (hroll : cfg.windowSeconds > 0 ∧ now - e0.windowStart > cfg.windowSeconds) :
    rollWindow cfg now (appendFlip e0 now newVal enc)
      = (rolledEdge e0 now newVal enc, true) := by
  unfold rollWindow
  rw [show (appendFlip e0 now newVal enc).windowStart = e0.windowStart from rfl]
  rw [if_pos hroll]
  rw [show (appendFlip e0 now newVal enc).recent
      = AppendRecent e0.recent ⟨now, e0.lastValue, newVal, enc⟩ HardLimitRecentItems from rfl]
  rw [if_pos (appendRecent_length_pos e0.recent _ HardLimitRecentItems (by decide))]
  rw [appendRecent_drop_last e0.recent _ HardLimitRecentItems (by decide)]
  rfl

/-- The state an unrolled window leaves behind: flip appended, counter
bumped by one, window fields untouched. -/
def bumpedEdge (e0 : Edge) (now : Int) (newVal enc : String) : Edge :=
  { appendFlip e0 now newVal enc with flipCount := e0.flipCount + 1 }

/-- When the window does not roll, `rollWindow` only bumps the counter. -/
lemma rollWindow_not_rolled (cfg : FlapConfig) (now : Int) (e0 : Edge) (newVal enc : String)
    (hnr : ¬ (cfg.windowSeconds > 0 ∧ now - e0.windowStart > cfg.windowSeconds)) :
    rollWindow cfg now (appendFlip e0 now newVal enc)
      = (bumpedEdge e0 now newVal enc, false) := by
  unfold rollWindow
  rw [show (appendFlip e0 now newVal enc).windowStart = e0.windowStart from rfl]
  rw [if_neg hnr]
  rfl

/-! ### Branch equations for the aggregate path -/

lemma aggStage_casReq_doAgg {ε α : Type} (casRes : Int → Edge → Except ε Bool)
    (decode : String → Option α) (now ver : Int) (cfg : FlapConfig) (e2 : Edge)
    (hcond : e2.flipCount ≥ cfg.aggregateAt ∧ now > e2.aggUntilTS ∧
      (e2.recent.length : Int) ≥ cfg.aggregateAt) :
    (aggStage casRes decode now ver cfg e2).casReq
      = some (ver, { e2 with aggUntilTS := now + cfg.aggregateCooldownSeconds, recent := [] }) := by
  unfold aggStage
  rw [if_pos hcond]
  split <;> rfl

lemma aggStage_commit {ε α : Type} (casRes : Int → Edge → Except ε Bool)
    (decode : String → Option α) (now ver : Int) (cfg : FlapConfig) (e2 : Edge)
    (hcond : e2.flipCount ≥ cfg.aggregateAt ∧ now > e2.aggUntilTS ∧
      (e2.recent.length : Int) ≥ cfg.aggregateAt)
    (hc : casRes ver { e2 with aggUntilTS := now + cfg.aggregateCooldownSeconds, recent := [] }
      = .ok true) :
    aggStage casRes decode now ver cfg e2
      = ⟨.AggregateSent,
          some (BuildAggregate { e2 with aggUntilTS := now + cfg.aggregateCooldownSeconds }
            cfg.aggregateMaxItems decode),
          none,
          some (ver, { e2 with aggUntilTS := now + cfg.aggregateCooldownSeconds, recent := [] })⟩ := by
  unfold aggStage
  rw [if_pos hcond, hc]

lemma aggStage_miss {ε α : Type} (casRes : Int → Edge → Except ε Bool)
    (decode : String → Option α) (now ver : Int) (cfg : FlapConfig) (e2 : Edge)
    (hcond : e2.flipCount ≥ cfg.aggregateAt ∧ now > e2.aggUntilTS ∧
      (e2.recent.length : Int) ≥ cfg.aggregateAt)
    (hc : casRes ver { e2 with aggUntilTS := now + cfg.aggregateCooldownSeconds, recent := [] }
      = .ok false) :
    aggStage casRes decode now ver cfg e2
      = ⟨.NoOp, none, none,
          some (ver, { e2 with aggUntilTS := now + cfg.aggregateCooldownSeconds, recent := [] })⟩ := by
  unfold aggStage
  rw [if_pos hcond, hc]

lemma aggStage_else_casReq {ε α : Type} (casRes : Int → Edge → Except ε Bool)
    (decode : String → Option α) (now ver : Int) (cfg : FlapConfig) (e2 : Edge)
    (hncond : ¬ (e2.flipCount ≥ cfg.aggregateAt ∧ now > e2.aggUntilTS ∧
      (e2.recent.length : Int) ≥ cfg.aggregateAt)) :
    (aggStage casRes decode now ver cfg e2).casReq = some (ver, e2) := by
  unfold aggStage
  rw [if_neg hncond]
  split <;> rfl

lemma aggStage_else_commit {ε α : Type} (casRes : Int → Edge → Except ε Bool)
    (decode : String → Option α) (now ver : Int) (cfg : FlapConfig) (e2 : Edge)
    (hncond : ¬ (e2.flipCount ≥ cfg.aggregateAt ∧ now > e2.aggUntilTS ∧
      (e2.recent.length : Int) ≥ cfg.aggregateAt))
    (hc : casRes ver e2 = .ok true) :
    aggStage casRes decode now ver cfg e2
      = ⟨.SuppressFlapping, none, none, some (ver, e2)⟩ := by
  unfold aggStage
  rw [if_neg hncond, hc]

lemma aggStage_else_miss {ε α : Type} (casRes : Int → Edge → Except ε Bool)
    (decode : String → Option α) (now ver : Int) (cfg : FlapConfig) (e2 : Edge)
    (hncond : ¬ (e2.flipCount ≥ cfg.aggregateAt ∧ now > e2.aggUntilTS ∧
      (e2.recent.length : Int) ≥ cfg.aggregateAt))
    (hc : casRes ver e2 = .ok false) :
    aggStage casRes decode now ver cfg e2
      = ⟨.NoOp, none, none, some (ver, e2)⟩ := by
  unfold aggStage
  rw [if_neg hncond, hc]

/-! ## C2: window roll -/

/-- Claim C2: on a flip with flapping configured, if `window_seconds > 0`
and `now - window_start` is strictly greater than `window_seconds`, the
engine starts a fresh window — `window_start = now`, `flip_count = 1`,
`recent` trimmed to exactly the appended flip — and skips aggregation,
so that when the new flip count exceeds `suppress_below` a committed CAS
yields `EdgeTriggeredForward`; otherwise `flip_count` is incremented by
one and the window fields are unchanged. -/
theorem claim2_window_roll {ε α : Type} (casRes : Int → Edge → Except ε Bool)
    (decode : String → Option α) (now ver : Int) (newVal enc : String)
    (e0 : Edge) (cfg : FlapConfig) (hne : ¬ e0.lastValue = newVal) :
    ((cfg.windowSeconds > 0 ∧ now - e0.windowStart > cfg.windowSeconds) →
      (EvaluateEdgeAndFlap (.ok (some e0, ver)) (.ok enc) casRes decode now newVal
          (some cfg)).casReq = some (ver, rolledEdge e0 now newVal enc) ∧
      (cfg.suppressBelow < 1 →
        casRes ver (rolledEdge e0 now newVal enc) = .ok true →
        (EvaluateEdgeAndFlap (.ok (some e0, ver)) (.ok enc) casRes decode now newVal
            (some cfg)).action = .EdgeTriggeredForward ∧
        (EvaluateEdgeAndFlap (.ok (some e0, ver)) (.ok enc) casRes decode now newVal
            (some cfg)).agg = none)) ∧
    (¬ (cfg.windowSeconds > 0 ∧ now - e0.windowStart > cfg.windowSeconds) →
      ((EvaluateEdgeAndFlap (.ok (some e0, ver)) (.ok enc) casRes decode now newVal
          (some cfg)).casReq.map (fun p => (p.1, p.2.flipCount, p.2.windowStart)))
        = some (ver, e0.flipCount + 1, e0.windowStart)) := by
  rw [evaluate_flip_flap casRes decode now ver newVal enc e0 cfg hne]
  constructor
  · intro hroll
    unfold flapStage
    rw [rollWindow_rolled cfg now e0 newVal enc hroll]
    rw [show (rolledEdge e0 now newVal enc, true).1 = rolledEdge e0 now newVal enc from rfl]
    rw [show (rolledEdge e0 now newVal enc, true).2 = true from rfl]
    constructor
    · split
      · rfl
      · rw [if_neg (by simp)]
        rw [finalCAS_casReq]
    · intro hsup hcas
      rw [if_neg (by simp [rolledEdge]; omega)]
      rw [if_neg (by simp)]
      rw [finalCAS_ok_true casRes ver _ hcas]
      exact ⟨rfl, rfl⟩
  · intro hnr
    rw [flapStage_casReq_proj]
    rw [rollWindow_not_rolled cfg now e0 newVal enc hnr]
    rfl

/-- Witness for C2: concrete rolled and unrolled instances. -/
theorem claim2_witness :
    ((EvaluateEdgeAndFlap (ε := Unit) (α := Unit) (.ok (some ⟨"s", "a", 0, 0, 7, [], 0⟩, 3))
        (.ok "pp") (fun _ _ => .ok true) (fun _ => none) 100 "b" (some ⟨60, 0, 2, 0, 0⟩)).casReq
      = some (3, rolledEdge ⟨"s", "a", 0, 0, 7, [], 0⟩ 100 "b" "pp") ∧
     (EvaluateEdgeAndFlap (ε := Unit) (α := Unit) (.ok (some ⟨"s", "a", 0, 0, 7, [], 0⟩, 3))
        (.ok "pp") (fun _ _ => .ok true) (fun _ => none) 100 "b" (some ⟨60, 0, 2, 0, 0⟩)).action
      = .EdgeTriggeredForward) ∧
    ((EvaluateEdgeAndFlap (ε := Unit) (α := Unit) (.ok (some ⟨"s", "a", 0, 0, 7, [], 0⟩, 3))
        (.ok "pp") (fun _ _ => .ok true) (fun _ => none) 30 "b" (some ⟨60, 0, 99, 0, 0⟩)).casReq.map
          (fun p => (p.1, p.2.flipCount, p.2.windowStart)))
      = some (3, 8, 0) := by
  refine ⟨⟨?_, ?_⟩, ?_⟩
  · exact ((claim2_window_roll (fun _ _ => .ok true) (fun _ => none) 100 3 "b" "pp"
      ⟨"s", "a", 0, 0, 7, [], 0⟩ ⟨60, 0, 2, 0, 0⟩ (by decide)).1 (by constructor <;> decide)).1
  · exact (((claim2_window_roll (fun _ _ => .ok true) (fun _ => none) 100 3 "b" "pp"
      ⟨"s", "a", 0, 0, 7, [], 0⟩ ⟨60, 0, 2, 0, 0⟩ (by decide)).1 (by constructor <;> decide)).2
      (by decide) rfl).1
  · exact (claim2_window_roll (fun _ _ => .ok true) (fun _ => none) 30 3 "b" "pp"
      ⟨"s", "a", 0, 0, 7, [], 0⟩ ⟨60, 0, 99, 0, 0⟩ (by decide)).2 (by decide)

/-! ## C5: target rate-limit demotion -/

lemma evaluate_ok_err_none {ε α : Type} (lr : Option Edge × Int) (enc : String)
    (casB : Int → Edge → Bool) (decode : String → Option α) (now : Int) (newVal : String)
    (f : Option FlapConfig) :
    (EvaluateEdgeAndFlap (ε := ε) (.ok lr) (.ok enc) (fun p n => .ok (casB p n))
      decode now newVal f).err = none := by
  unfold EvaluateEdgeAndFlap flapStage aggStage finalCAS
  repeat' split
  all_goals simp_all

lemma engineStep_err_none {α : Type} (sk : String) (s : Store) (enc : String)
    (decode : String → Option α) (now : Int) (v : String) (f : Option FlapConfig) :
    (engineStep sk s enc decode now v f).1.err = none :=
  evaluate_ok_err_none (Ddb.Load s) enc (fun p n => (Ddb.UpsertCAS s sk p n).1)
    decode now v f

/-- Once auth/limits/pass-through/eval are out of the way, `Run` is the
target stage applied to the engine's outcome. -/
lemma run_reaches_target_stage {α : Type} (clientID clientIP : String) (cc : ClientConfig)
    (acquire : String → Int → Except Unit Bool) (store : Store)
    (passEval : Option Bool) (evalStr : Except Unit (Option String))
    (encoded : String) (decode : String → Option α) (now : Int) (v : String)
    (hip : cc.ipRPM > 0 → acquire ("IP:" ++ clientIP) cc.ipRPM = .ok true)
    (hcl : cc.clientRPM > 0 → acquire ("CLIENT:" ++ clientID) cc.clientRPM = .ok true)
    (hpass : CheckPassthrough cc.passthrough passEval = false)
    (hfe : ¬ cc.trigger.fieldExpr = "")
    (heval : evalStr = .ok (some v)) :
    Run clientID clientIP cc acquire store passEval evalStr encoded decode now
      = targetStage clientID cc acquire
          (engineStep (ComputeKey cc.trigger.fieldExpr) store encoded decode now v
            cc.trigger.flapping).1.action
          (engineStep (ComputeKey cc.trigger.fieldExpr) store encoded decode now v
            cc.trigger.flapping).1.agg
          (engineStep (ComputeKey cc.trigger.fieldExpr) store encoded decode now v
            cc.trigger.flapping).2
          ((if cc.ipRPM > 0 then [("IP:" ++ clientIP, cc.ipRPM)] else [])
            ++ (if cc.clientRPM > 0 then [("CLIENT:" ++ clientID, cc.clientRPM)] else [])) := by
  by_cases h1 : cc.ipRPM > 0
  · by_cases h2 : cc.clientRPM > 0
    · simp [Run, clientLimitStage, passStage, h1, h2, hip h1, hcl h2, hpass, hfe, heval,
        engineStep_err_none]
    · simp [Run, clientLimitStage, passStage, h1, h2, hip h1, hpass, hfe, heval,
        engineStep_err_none]
  · by_cases h2 : cc.clientRPM > 0
    · simp [Run, clientLimitStage, passStage, h1, h2, hcl h2, hpass, hfe, heval,
        engineStep_err_none]
    · simp [Run, clientLimitStage, passStage, h1, h2, hpass, hfe, heval,
        engineStep_err_none]

/-- Claim C5: the target rate limiter is consulted exactly when the
engine's action is `EdgeTriggeredForward` or `AggregateSent` and
`target_rpm > 0`, with scope `"TARGET:" + tenant + ":" + topic`; when it
does not grant, the action is demoted to `NoOp` with status 429, the
handler publishes nothing, and the engine's committed store write stays
in place. -/
theorem claim5_target_rate_limit {α : Type} (clientID clientIP : String) (cc : ClientConfig)
    (acquire : String → Int → Except Unit Bool) (store : Store)
    (passEval : Option Bool) (evalStr : Except Unit (Option String))
    (encoded : String) (decode : String → Option α) (now : Int) (v : String)
    (hip : cc.ipRPM > 0 → acquire ("IP:" ++ clientIP) cc.ipRPM = .ok true)
    (hcl : cc.clientRPM > 0 → acquire ("CLIENT:" ++ clientID) cc.clientRPM = .ok true)
    (hpass : CheckPassthrough cc.passthrough passEval = false)
    (hfe : ¬ cc.trigger.fieldExpr = "")
    (heval : evalStr = .ok (some v)) :
    (¬ (((engineStep (ComputeKey cc.trigger.fieldExpr) store encoded decode now v
            cc.trigger.flapping).1.action = .EdgeTriggeredForward ∨
          (engineStep (ComputeKey cc.trigger.fieldExpr) store encoded decode now v
            cc.trigger.flapping).1.action = .AggregateSent) ∧
        cc.trigger.target.snsRPM > 0) →
      Run clientID clientIP cc acquire store passEval evalStr encoded decode now
        = ⟨(engineStep (ComputeKey cc.trigger.fieldExpr) store encoded decode now v
              cc.trigger.flapping).1.action,
            StatusAccepted, none,
            (engineStep (ComputeKey cc.trigger.fieldExpr) store encoded decode now v
              cc.trigger.flapping).1.agg,
            (engineStep (ComputeKey cc.trigger.fieldExpr) store encoded decode now v
              cc.trigger.flapping).2,
            (if cc.ipRPM > 0 then [("IP:" ++ clientIP, cc.ipRPM)] else [])
              ++ (if cc.clientRPM > 0 then [("CLIENT:" ++ clientID, cc.clientRPM)] else [])⟩) ∧
    ((((engineStep (ComputeKey cc.trigger.fieldExpr) store encoded decode now v
            cc.trigger.flapping).1.action = .EdgeTriggeredForward ∨
          (engineStep (ComputeKey cc.trigger.fieldExpr) store encoded decode now v
            cc.trigger.flapping).1.action = .AggregateSent) ∧
        cc.trigger.target.snsRPM > 0) →
      (acquire ("TARGET:" ++ clientID ++ ":" ++ cc.trigger.target.snsArn)
          cc.trigger.target.snsRPM = .ok true →
        Run clientID clientIP cc acquire store passEval evalStr encoded decode now
          = ⟨(engineStep (ComputeKey cc.trigger.fieldExpr) store encoded decode now v
                cc.trigger.flapping).1.action,
              StatusAccepted, none,
              (engineStep (ComputeKey cc.trigger.fieldExpr) store encoded decode now v
                cc.trigger.flapping).1.agg,
              (engineStep (ComputeKey cc.trigger.fieldExpr) store encoded decode now v
                cc.trigger.flapping).2,
              ((if cc.ipRPM > 0 then [("IP:" ++ clientIP, cc.ipRPM)] else [])
                ++ (if cc.clientRPM > 0 then [("CLIENT:" ++ clientID, cc.clientRPM)] else []))
                ++ [("TARGET:" ++ clientID ++ ":" ++ cc.trigger.target.snsArn,
                  cc.trigger.target.snsRPM)]⟩) ∧
      (acquire ("TARGET:" ++ clientID ++ ":" ++ cc.trigger.target.snsArn)
          cc.trigger.target.snsRPM = .ok false →
        Run clientID clientIP cc acquire store passEval evalStr encoded decode now
          = ⟨.NoOp, StatusTooManyRequests, none,
              (engineStep (ComputeKey cc.trigger.fieldExpr) store encoded decode now v
                cc.trigger.flapping).1.agg,
              (engineStep (ComputeKey cc.trigger.fieldExpr) store encoded decode now v
                cc.trigger.flapping).2,
              ((if cc.ipRPM > 0 then [("IP:" ++ clientIP, cc.ipRPM)] else [])
                ++ (if cc.clientRPM > 0 then [("CLIENT:" ++ clientID, cc.clientRPM)] else []))
                ++ [("TARGET:" ++ clientID ++ ":" ++ cc.trigger.target.snsArn,
                  cc.trigger.target.snsRPM)]⟩ ∧
        publishes (Run clientID clientIP cc acquire store passEval evalStr encoded
          decode now).action = false)) := by
  rw [run_reaches_target_stage clientID clientIP cc acquire store passEval evalStr encoded
    decode now v hip hcl hpass hfe heval]
  refine ⟨?_, ?_⟩
  · intro hnc
    unfold targetStage
    rw [if_neg hnc]
  · intro hc
    constructor
    · intro htrue
      unfold targetStage
      rw [if_pos hc, htrue]
    · intro hfalse
      unfold targetStage
      rw [if_pos hc, hfalse]
      exact ⟨rfl, rfl⟩

/-- Witness for C5 at a concrete configuration: a first observation
commits an edge transition, the target limiter (rpm 1) denies, the
response demotes to `NoOp`/429, nothing is published, and the committed
create survives in the store. -/
theorem claim5_witness :
    Run (α := Unit) "cid" "1.2.3.4"
        ⟨"cid", "n", "k1234567", 0, 0, ⟨"", false⟩, ⟨"f", [], ⟨"arn", 1⟩, none⟩⟩
        (fun s _ => if s = "TARGET:cid:arn" then .ok false else .ok true)
        none none (.ok (some "x")) "e" (fun _ => none) 7
      = ⟨.NoOp, StatusTooManyRequests, none, none,
          some ({ initialEdge 7 "x" with scopeKey := ComputeKey "f" }, 1),
          [("TARGET:cid:arn", 1)]⟩ ∧
    publishes (Run (α := Unit) "cid" "1.2.3.4"
        ⟨"cid", "n", "k1234567", 0, 0, ⟨"", false⟩, ⟨"f", [], ⟨"arn", 1⟩, none⟩⟩
        (fun s _ => if s = "TARGET:cid:arn" then .ok false else .ok true)
        none none (.ok (some "x")) "e" (fun _ => none) 7).action = false := by
  have hmain := claim5_target_rate_limit (α := Unit) "cid" "1.2.3.4"
      ⟨"cid", "n", "k1234567", 0, 0, ⟨"", false⟩, ⟨"f", [], ⟨"arn", 1⟩, none⟩⟩
      (fun s _ => if s = "TARGET:cid:arn" then .ok false else .ok true)
      none none (.ok (some "x")) "e" (fun _ => none) 7 "x"
      (by intro h; exact absurd h (by decide))
      (by intro h; exact absurd h (by decide))
      rfl (by decide) rfl
  have hcase := hmain.2 ⟨Or.inl rfl, by decide⟩
  have hfalse := hcase.2 rfl
  exact ⟨hfalse.1.trans rfl, hfalse.2⟩

/-! ## C7: rate limiter acquire semantics -/

lemma acquireSeq_le (cap : Int) :
    ∀ (calls : List (Int × Int)) (b : Option Bucket),
      (acquireSeq cap b calls).1 ≤ cap.toNat - countOf b := by
  intro calls
  induction calls with
  | nil =>
    intro b
    simp [acquireSeq]
  | cons p rest ih =>
    intro b
    rcases p with ⟨now, w⟩
    by_cases hcap : cap ≤ 0
    · simp only [acquireSeq, Ddb.AcquireBucket, if_pos hcap]
      simpa using ih b
    · rcases b with _ | bk
      · simp [acquireSeq, Ddb.AcquireBucket, hcap]
        have := ih (some ⟨1, now + w + 120⟩)
        simp [countOf] at this ⊢
        omega
      · by_cases hlt : (bk.count : Int) < cap
        · simp [acquireSeq, Ddb.AcquireBucket, hcap, hlt]
          have := ih (some ⟨bk.count + 1, bk.ttl⟩)
          simp [countOf] at this ⊢
          omega
        · simp [acquireSeq, Ddb.AcquireBucket, hcap, hlt]
          have := ih (some bk)
          simp [countOf] at this ⊢
          omega

/-- Claim C7: `acquire(scope, cap, window)` returns `granted = false` when
`cap = 0`; otherwise it operates on the bucket keyed
`(scope, now / 60)`, creating it if absent with the TTL set only at
creation, increments the count by exactly one and grants precisely when
the current count is below `cap`, and leaves the count unchanged and
denies otherwise — so a sequential run grants at most `cap` acquisitions
per bucket. Both the DynamoDB and the Redis backends obey this. -/
theorem claim7_rate_limiter_acquire :
    (∀ (b : Option Bucket) (now window : Int),
      Ddb.AcquireBucket b 0 now window = (false, b) ∧
      Redis.AcquireBucket b 0 now window = (false, b)) ∧
    (∀ (cap now window : Int), 0 < cap →
      Ddb.AcquireBucket none cap now window = (true, some ⟨1, now + window + 120⟩) ∧
      Redis.AcquireBucket none cap now window = (true, some ⟨1, now + 2 * window⟩)) ∧
    (∀ (bk : Bucket) (cap now window : Int), 0 < cap → (bk.count : Int) < cap →
      Ddb.AcquireBucket (some bk) cap now window = (true, some ⟨bk.count + 1, bk.ttl⟩) ∧
      Redis.AcquireBucket (some bk) cap now window = (true, some ⟨bk.count + 1, bk.ttl⟩)) ∧
    (∀ (bk : Bucket) (cap now window : Int), 0 < cap → ¬ (bk.count : Int) < cap →
      Ddb.AcquireBucket (some bk) cap now window = (false, some bk) ∧
      Redis.AcquireBucket (some bk) cap now window = (false, some bk)) ∧
    (∀ (table : (String × Int) → Option Bucket) (scope : String) (cap now window : Int),
      (Ddb.Acquire table scope cap now window).1
        = (Ddb.AcquireBucket (table (scope, epochMin now)) cap now window).1 ∧
      (Ddb.Acquire table scope cap now window).2 (scope, epochMin now)
        = (Ddb.AcquireBucket (table (scope, epochMin now)) cap now window).2 ∧
      (∀ k, ¬ k = (scope, epochMin now) →
        (Ddb.Acquire table scope cap now window).2 k = table k)) ∧
    (∀ (cap : Int) (calls : List (Int × Int)),
      (acquireSeq cap none calls).1 ≤ cap.toNat) := by
  refine ⟨?_, ?_, ?_, ?_, ?_, ?_⟩
  · intro b now window
    constructor <;> simp [Ddb.AcquireBucket, Redis.AcquireBucket]
  · intro cap now window hcap
    constructor <;> simp [Ddb.AcquireBucket, Redis.AcquireBucket] <;> omega
  · intro bk cap now window hcap hlt
    constructor
    · simp only [Ddb.AcquireBucket, if_neg (by omega : ¬ cap ≤ 0), if_pos hlt]
    · simp only [Redis.AcquireBucket, if_neg (by omega : ¬ cap ≤ 0),
        if_neg (by omega : ¬ (bk.count : Int) ≥ cap)]
  · intro bk cap now window hcap hge
    constructor
    · simp only [Ddb.AcquireBucket, if_neg (by omega : ¬ cap ≤ 0), if_neg hge]
    · simp only [Redis.AcquireBucket, if_neg (by omega : ¬ cap ≤ 0),
        if_pos (by omega : (bk.count : Int) ≥ cap)]
  · intro table scope cap now window
    refine ⟨rfl, ?_, ?_⟩
    · simp [Ddb.Acquire]
    · intro k hk
      simp [Ddb.Acquire, hk]
  · intro cap calls
    simpa using acquireSeq_le cap calls none

/-- Witness for C7: an empty bucket with cap 2 grants, a full one does
not, and three sequential calls on one bucket grant only twice. -/
theorem claim7_witness :
    Ddb.AcquireBucket none 2 100 60 = (true, some ⟨1, 280⟩) ∧
    Ddb.AcquireBucket (some ⟨2, 280⟩) 2 100 60 = (false, some ⟨2, 280⟩) ∧
    (acquireSeq 2 none [(100, 60), (101, 60), (102, 60)]).1 ≤ (2 : Int).toNat := by
  refine ⟨?_, ?_, ?_⟩
  · exact ((claim7_rate_limiter_acquire.2.1 2 100 60 (by decide)).1)
  · exact ((claim7_rate_limiter_acquire.2.2.2.1 ⟨2, 280⟩ 2 100 60 (by decide) (by decide)).1)
  · exact claim7_rate_limiter_acquire.2.2.2.2.2 2 [(100, 60), (101, 60), (102, 60)]

/-! ## C1: stability of the edge/flap engine -/

lemma engineStep_empty {α : Type} (sk : String) (enc : String) (decode : String → Option α)
    (now : Int) (v : String) (f : Option FlapConfig) :
    engineStep sk none enc decode now v f
      = (⟨.EdgeTriggeredForward, none, none, some (0, initialEdge now v)⟩,
          some ({ initialEdge now v with scopeKey := sk }, 1)) := rfl

lemma engineStep_stable {α : Type} (sk : String) (e : Edge) (ver : Int) (enc : String)
    (decode : String → Option α) (now : Int) (v : String) (f : Option FlapConfig)
    (h : e.lastValue = v) :
    engineStep sk (some (e, ver)) enc decode now v f
      = (⟨.NoOp, none, none, none⟩, some (e, ver)) := by
  simp [engineStep, Ddb.Load, EvaluateEdgeAndFlap, h]

lemma runCalls_stable {α : Type} (sk : String) (decode : String → Option α)
    (e : Edge) (ver : Int) (v : String) (calls : List Call)
    (h : e.lastValue = v) (hall : ∀ c ∈ calls, c.newVal = v) :
    runCalls sk decode (some (e, ver)) calls
      = (List.replicate calls.length .NoOp, some (e, ver)) := by
  induction calls with
  | nil => rfl
  | cons c rest ih =>
    have hc : c.newVal = v := hall c (by simp)
    simp only [runCalls]
    rw [engineStep_stable sk e ver c.encoded decode c.now c.newVal c.f (by rw [h, hc])]
    rw [ih (fun cc hcc => hall cc (by simp [hcc]))]
    simp [List.replicate_succ]

/-- Claim C1: (i) on first observation the engine creates state with
`last_value = new_value`, `flip_count = 0`, empty `recent` and
`agg_until_ts = 0` via a CAS with `prev_version = 0`, returning
`EdgeTriggeredForward` on commit and `SuppressFlapping` on CAS miss;
(ii) when stored `last_value` equals the new value the engine returns
`NoOp` with no store write; (iii) hence any nonempty sequence of engine
calls carrying the same trigger value yields `EdgeTriggeredForward` once,
then `NoOp` forever. -/
theorem claim1_engine_stability :
    (∀ (ε α : Type) (encodeRes : Except ε String) (casRes : Int → Edge → Except ε Bool)
        (decode : String → Option α) (now ver : Int) (newVal : String) (f : Option FlapConfig),
      (initialEdge now newVal).lastValue = newVal ∧
      (initialEdge now newVal).flipCount = 0 ∧
      (initialEdge now newVal).recent = [] ∧
      (initialEdge now newVal).aggUntilTS = 0 ∧
      (EvaluateEdgeAndFlap (.ok (none, ver)) encodeRes casRes decode now newVal f).casReq
        = some (0, initialEdge now newVal) ∧
      (casRes 0 (initialEdge now newVal) = .ok true →
        EvaluateEdgeAndFlap (.ok (none, ver)) encodeRes casRes decode now newVal f
          = ⟨.EdgeTriggeredForward, none, none, some (0, initialEdge now newVal)⟩) ∧
      (casRes 0 (initialEdge now newVal) = .ok false →
        EvaluateEdgeAndFlap (.ok (none, ver)) encodeRes casRes decode now newVal f
          = ⟨.SuppressFlapping, none, none, some (0, initialEdge now newVal)⟩)) ∧
    (∀ (ε α : Type) (encodeRes : Except ε String) (casRes : Int → Edge → Except ε Bool)
        (decode : String → Option α) (now ver : Int) (e : Edge) (newVal : String)
        (f : Option FlapConfig),
      e.lastValue = newVal →
      EvaluateEdgeAndFlap (.ok (some e, ver)) encodeRes casRes decode now newVal f
        = ⟨.NoOp, none, none, none⟩) ∧
    (∀ (α : Type) (sk : String) (decode : String → Option α) (v : String)
        (c : Call) (calls : List Call),
      (∀ cc ∈ c :: calls, cc.newVal = v) →
      (runCalls sk decode none (c :: calls)).1
        = .EdgeTriggeredForward :: List.replicate calls.length .NoOp) := by
  refine ⟨?_, ?_, ?_⟩
  · intro ε α encodeRes casRes decode now ver newVal f
    refine ⟨rfl, rfl, rfl, rfl, ?_, ?_, ?_⟩
    · simp only [EvaluateEdgeAndFlap]
      split <;> rfl
    · intro h
      simp only [EvaluateEdgeAndFlap]
      rw [h]
    · intro h
      simp only [EvaluateEdgeAndFlap]
      rw [h]
  · intro ε α encodeRes casRes decode now ver e newVal f h
    simp [EvaluateEdgeAndFlap, h]
  · intro α sk decode v c calls hall
    simp only [runCalls]
    rw [engineStep_empty sk c.encoded decode c.now c.newVal c.f]
    rw [runCalls_stable sk decode _ 1 v calls
      (by simp only [initialEdge]; exact hall c (by simp))
      (fun cc hcc => hall cc (by simp [hcc]))]

/-- Witness for C1: a two-call run with the same value "x" produces
`EdgeTriggeredForward` then `NoOp`, and the stable case writes nothing. -/
theorem claim1_witness :
    (runCalls "sk" (fun _ => (none : Option Unit)) none
        [⟨5, "x", none, "e"⟩, ⟨6, "x", none, "e"⟩]).1
      = [.EdgeTriggeredForward, .NoOp] ∧
    EvaluateEdgeAndFlap (ε := Unit) (α := Unit) (.ok (some (initialEdge 5 "x"), 1)) (.ok "e")
        (fun _ _ => .ok true) (fun _ => none) 6 "x" none
      = ⟨.NoOp, none, none, none⟩ := by
  constructor
  · exact claim1_engine_stability.2.2 Unit "sk" (fun _ => none) "x"
      ⟨5, "x", none, "e"⟩ [⟨6, "x", none, "e"⟩] (by intro cc hcc; fin_cases hcc <;> rfl)
  · exact claim1_engine_stability.2.1 Unit Unit (.ok "e") (fun _ _ => .ok true)
      (fun _ => none) 6 1 (initialEdge 5 "x") "x" none rfl

/-! ## C3: aggregate gating and cooldown -/

/-- The state `BuildAggregate` reads on the aggregate path: counter
bumped and the cooldown stamp set, `recent` still intact. -/
def aggSourceEdge (e0 : Edge) (now : Int) (newVal enc : String) (cfg : FlapConfig) : Edge :=
  { bumpedEdge e0 now newVal enc with aggUntilTS := now + cfg.aggregateCooldownSeconds }

/-- The state the aggregate path CAS-writes: as `aggSourceEdge` but with
`recent` cleared. -/
def aggClearedEdge (e0 : Edge) (now : Int) (newVal enc : String) (cfg : FlapConfig) : Edge :=
  { aggSourceEdge e0 now newVal enc cfg with recent := [] }

/-- An existing state with 3 retained flips and flip_count 3. -/
def e0c3 : Edge :=
  ⟨"s", "a", 0, 1000, 3, [⟨1, "a", "b", "p"⟩, ⟨2, "b", "a", "p"⟩, ⟨3, "a", "b", "p"⟩], 0⟩

/-- `suppress_below = 5` exceeds the aggregation threshold 3. -/
def cfgc3 : FlapConfig := ⟨300, 5, 3, 0, 7⟩

/-- Claim C3, counterexample: at `now = 1000` on state `e0c3` with config
`cfgc3`, the window does not roll, `aggregate_at = 3 > 0`, and all three
gating conditions hold (`flip_count = 4 ≥ 3`, `now > agg_until_ts`,
`len(recent) = 4 ≥ 3`), yet the engine returns `SuppressFlapping` with no
aggregate and does not stamp the cooldown, because the suppress-below
check (`4 ≤ 5`) runs first — contradicting the claim as stated. -/
theorem claim3_counterexample :
    (¬ (cfgc3.windowSeconds > 0 ∧ 1000 - e0c3.windowStart > cfgc3.windowSeconds)) ∧
    cfgc3.aggregateAt > 0 ∧
    ((bumpedEdge e0c3 1000 "b" "e").flipCount ≥ cfgc3.aggregateAt ∧
      (1000 : Int) > (bumpedEdge e0c3 1000 "b" "e").aggUntilTS ∧
      ((bumpedEdge e0c3 1000 "b" "e").recent.length : Int) ≥ cfgc3.aggregateAt) ∧
    (EvaluateEdgeAndFlap (ε := Unit) (α := Unit) (.ok (some e0c3, 1)) (.ok "e")
      (fun _ _ => .ok true) (fun _ => none) 1000 "b" (some cfgc3)).action
        = .SuppressFlapping ∧
    (EvaluateEdgeAndFlap (ε := Unit) (α := Unit) (.ok (some e0c3, 1)) (.ok "e")
      (fun _ _ => .ok true) (fun _ => none) 1000 "b" (some cfgc3)).agg = none ∧
    ((EvaluateEdgeAndFlap (ε := Unit) (α := Unit) (.ok (some e0c3, 1)) (.ok "e")
      (fun _ _ => .ok true) (fun _ => none) 1000 "b" (some cfgc3)).casReq.map
        (fun p => p.2.aggUntilTS)) = some 0 := by
  decide

/-- Claim C3, amended: on a flip with flapping configured where the window
did not roll, `aggregate_at > 0`, AND the incremented flip count exceeds
`suppress_below` (the suppress check runs first), the stated gating
applies: if `flip_count ≥ aggregate_at` and `now > agg_until_ts` and
`len(recent) ≥ aggregate_at`, the engine stamps
`agg_until_ts = now + aggregate_cooldown_seconds`, builds the aggregate,
clears `recent`, and a committed CAS returns `AggregateSent` with that
payload (`NoOp` on miss); if any gating condition fails, a committed CAS
returns `SuppressFlapping` (`NoOp` on miss). -/
theorem claim3_aggregate_gating_amended {ε α : Type} (casRes : Int → Edge → Except ε Bool)
    (decode : String → Option α) (now ver : Int) (newVal enc : String)
    (e0 : Edge) (cfg : FlapConfig)
    (hne : ¬ e0.lastValue = newVal)
    (hnr : ¬ (cfg.windowSeconds > 0 ∧ now - e0.windowStart > cfg.windowSeconds))
    (hagg : cfg.aggregateAt > 0)
    (hsup : cfg.suppressBelow < e0.flipCount + 1) :
    (((bumpedEdge e0 now newVal enc).flipCount ≥ cfg.aggregateAt ∧
        now > (bumpedEdge e0 now newVal enc).aggUntilTS ∧
        ((bumpedEdge e0 now newVal enc).recent.length : Int) ≥ cfg.aggregateAt) →
      (EvaluateEdgeAndFlap (.ok (some e0, ver)) (.ok enc) casRes decode now newVal
          (some cfg)).casReq = some (ver, aggClearedEdge e0 now newVal enc cfg) ∧
      (casRes ver (aggClearedEdge e0 now newVal enc cfg) = .ok true →
        EvaluateEdgeAndFlap (.ok (some e0, ver)) (.ok enc) casRes decode now newVal
            (some cfg)
          = ⟨.AggregateSent,
              some (BuildAggregate (aggSourceEdge e0 now newVal enc cfg)
                cfg.aggregateMaxItems decode),
              none, some (ver, aggClearedEdge e0 now newVal enc cfg)⟩) ∧
      (casRes ver (aggClearedEdge e0 now newVal enc cfg) = .ok false →
        EvaluateEdgeAndFlap (.ok (some e0, ver)) (.ok enc) casRes decode now newVal
            (some cfg)
          = ⟨.NoOp, none, none, some (ver, aggClearedEdge e0 now newVal enc cfg)⟩)) ∧
    (¬ ((bumpedEdge e0 now newVal enc).flipCount ≥ cfg.aggregateAt ∧
        now > (bumpedEdge e0 now newVal enc).aggUntilTS ∧
        ((bumpedEdge e0 now newVal enc).recent.length : Int) ≥ cfg.aggregateAt) →
      (EvaluateEdgeAndFlap (.ok (some e0, ver)) (.ok enc) casRes decode now newVal
          (some cfg)).casReq = some (ver, bumpedEdge e0 now newVal enc) ∧
      (casRes ver (bumpedEdge e0 now newVal enc) = .ok true →
        EvaluateEdgeAndFlap (.ok (some e0, ver)) (.ok enc) casRes decode now newVal
            (some cfg)
          = ⟨.SuppressFlapping, none, none, some (ver, bumpedEdge e0 now newVal enc)⟩) ∧
      (casRes ver (bumpedEdge e0 now newVal enc) = .ok false →
        EvaluateEdgeAndFlap (.ok (some e0, ver)) (.ok enc) casRes decode now newVal
            (some cfg)
          = ⟨.NoOp, none, none, some (ver, bumpedEdge e0 now newVal enc)⟩)) := by
  rw [evaluate_flip_flap casRes decode now ver newVal enc e0 cfg hne]
  unfold flapStage
  rw [rollWindow_not_rolled cfg now e0 newVal enc hnr]
  rw [show (bumpedEdge e0 now newVal enc, false).1 = bumpedEdge e0 now newVal enc from rfl]
  rw [show (bumpedEdge e0 now newVal enc, false).2 = false from rfl]
  rw [if_neg (show ¬ (bumpedEdge e0 now newVal enc).flipCount ≤ cfg.suppressBelow by
    simp only [bumpedEdge, appendFlip]
    omega)]
  rw [if_pos (⟨hagg, rfl⟩ : cfg.aggregateAt > 0 ∧ (false : Bool) = false)]
  constructor
  · intro hcond
    refine ⟨?_, ?_, ?_⟩
    · exact aggStage_casReq_doAgg casRes decode now ver cfg _ hcond
    · intro hc
      exact aggStage_commit casRes decode now ver cfg _ hcond hc
    · intro hc
      exact aggStage_miss casRes decode now ver cfg _ hcond hc
  · intro hncond
    refine ⟨?_, ?_, ?_⟩
    · exact aggStage_else_casReq casRes decode now ver cfg _ hncond
    · intro hc
      exact aggStage_else_commit casRes decode now ver cfg _ hncond hc
    · intro hc
      exact aggStage_else_miss casRes decode now ver cfg _ hncond hc

/-- `cfgc3` with `suppress_below = 0`. -/
def cfgc3ok : FlapConfig := ⟨300, 0, 3, 0, 7⟩

/-- Witness for the amended C3: on `e0c3` with `suppress_below = 0` the
aggregate fires, stamps the cooldown and clears `recent`. -/
theorem claim3_witness :
    EvaluateEdgeAndFlap (ε := Unit) (α := Unit) (.ok (some e0c3, 1)) (.ok "e")
        (fun _ _ => .ok true) (fun _ => none) 1000 "b" (some cfgc3ok)
      = ⟨.AggregateSent,
          some (BuildAggregate (aggSourceEdge e0c3 1000 "b" "e" cfgc3ok)
            cfgc3ok.aggregateMaxItems (fun _ => none)),
          none, some (1, aggClearedEdge e0c3 1000 "b" "e" cfgc3ok)⟩ :=
  ((claim3_aggregate_gating_amended (fun _ _ => .ok true) (fun _ => none) 1000 1 "b" "e"
      e0c3 cfgc3ok (by decide) (by decide) (by decide) (by decide)).1
    (by decide)).2.1 rfl

/-- Witness for the amended C4 at `k = 2` over `edgeTwoFlips`. -/
theorem claim4_witness :
    (BuildAggregate edgeTwoFlips 2 dec0).recent
      = (edgeTwoFlips.recent.reverse.take ((2 : Int)).toNat).map
          (fun it => ⟨it.atTS, it.fromVal, it.toVal,
            if it.payload = "" then none else dec0 it.payload⟩) ∧
    ((BuildAggregate edgeTwoFlips 2 dec0).recent.length : Int) ≤ 2 :=
  ⟨(claim4_build_aggregate_amended edgeTwoFlips 2 dec0).2.2.2.2.2.2.1 (by decide),
    (claim4_build_aggregate_amended edgeTwoFlips 2 dec0).2.2.2.2.2.2.2 (by decide)⟩

end Enoti
